import Mathlib

/-!
Verification of the `motion` animation system against its specification.

Shallow embedding conventions:
* JavaScript numbers are modelled as exact rationals (`ℚ`); `Math.PI` is the
  IEEE-754 double actually used by the runtime, a dyadic rational.
* TypeScript tagged unions (`type` tag + `properties` payload cast) are
  modelled as closed Lean sum types; the tag is recovered from the payload
  constructor, matching every well-typed use in the source.
* Fallible or absent values (`?` fields, `null` returns) are `Option`.
-/

namespace Motion

/-- `src/animation/types.ts` `Point2D`. -/
structure Point2D where
  x : ℚ
  y : ℚ
deriving DecidableEq, Repr

/-- `src/animation/core/interpolation.ts` `lerp(start, end, t)`. -/
def lerp (start endV t : ℚ) : ℚ :=
  start + (endV - start) * t

/-- `src/animation/core/interpolation.ts` `lerpPoint`. -/
def lerpPoint (start endV : Point2D) (t : ℚ) : Point2D :=
  ⟨lerp start.x endV.x t, lerp start.y endV.y t⟩

/-- `src/animation/core/interpolation.ts` `linear`. -/
def linear (t : ℚ) : ℚ := t

/-- `src/animation/core/interpolation.ts` `easeInOutCubic`:
`t < 0.5 ? 4*t*t*t : 1 - Math.pow(-2*t+2, 3)/2`. -/
def easeInOutCubic (t : ℚ) : ℚ :=
  if t < 1/2 then 4*t*t*t else 1 - (-2*t + 2)^3 / 2

/-- `src/animation/core/interpolation.ts` `easeInCubic`. -/
def easeInCubic (t : ℚ) : ℚ := t*t*t

/-- `src/animation/core/interpolation.ts` `easeOutCubic`:
`1 - Math.pow(1-t, 3)`. -/
def easeOutCubic (t : ℚ) : ℚ := 1 - (1 - t)^3

/-- The exact value of the IEEE-754 double `Math.PI`
(= 884279719003555 / 2^48), the constant the runtime computes with. -/
def mathPI : ℚ := 884279719003555 / 281474976710656

/-- `src/animation/scene/scene.ts` `TriangleProperties`. -/
structure TriangleProperties where
  size : ℚ
  color : String
  strokeColor : Option String
  strokeWidth : Option ℚ
deriving DecidableEq, Repr

/-- `src/animation/scene/scene.ts` `CircleProperties`. -/
structure CircleProperties where
  radius : ℚ
  color : String
  strokeColor : Option String
  strokeWidth : Option ℚ
deriving DecidableEq, Repr

/-- `src/animation/scene/scene.ts` `RectangleProperties`. -/
structure RectangleProperties where
  width : ℚ
  height : ℚ
  color : String
  strokeColor : Option String
  strokeWidth : Option ℚ
deriving DecidableEq, Repr

/-- `src/animation/scene/scene.ts` `GeometryProperties`, with the
`SceneObject.type` tag folded into the union (the source always casts the
payload according to the tag). -/
inductive GeometryProperties where
  | triangle (p : TriangleProperties)
  | circle (p : CircleProperties)
  | rectangle (p : RectangleProperties)
deriving DecidableEq, Repr

/-- The `color` field each `GeometryProperties` variant carries
(`object.properties.color` in `timeline.ts`). -/
def GeometryProperties.color : GeometryProperties → String
  | .triangle p => p.color
  | .circle p => p.color
  | .rectangle p => p.color

/-- The `strokeColor` field each variant carries
(`(object.properties as any).strokeColor` in `timeline.ts`). -/
def GeometryProperties.strokeColor : GeometryProperties → Option String
  | .triangle p => p.strokeColor
  | .circle p => p.strokeColor
  | .rectangle p => p.strokeColor

/-- `src/animation/scene/scene.ts` `SceneObject` (optional fields as
`Option`, defaulted at evaluation time exactly as the `??` in the source). -/
structure SceneObject where
  id : String
  properties : GeometryProperties
  initialPosition : Point2D
  initialRotation : Option ℚ
  initialScale : Option Point2D
  initialOpacity : Option ℚ
deriving DecidableEq, Repr

/-- `src/animation/scene/scene.ts` `ScaleAnimation.from/to`:
`Point2D | number`. -/
inductive ScaleArg where
  | pt (p : Point2D)
  | num (q : ℚ)
deriving DecidableEq, Repr

/-- `src/animation/scene/scene.ts` `MoveAnimation` (`from` and `to` are Lean
keywords, rendered `fromVal`/`toVal`). -/
structure MoveAnimation where
  fromVal : Point2D
  toVal : Point2D
deriving DecidableEq, Repr

/-- `src/animation/scene/scene.ts` `RotateAnimation`. -/
structure RotateAnimation where
  fromVal : ℚ
  toVal : ℚ
  rotations : Option ℚ
deriving DecidableEq, Repr

/-- `src/animation/scene/scene.ts` `ScaleAnimation`. -/
structure ScaleAnimation where
  fromVal : ScaleArg
  toVal : ScaleArg
deriving DecidableEq, Repr

/-- `src/animation/scene/scene.ts` `FadeAnimation`. -/
structure FadeAnimation where
  fromVal : ℚ
  toVal : ℚ
deriving DecidableEq, Repr

/-- `src/animation/scene/scene.ts` `ColorAnimation.property`. -/
inductive ColorTarget where
  | fill
  | stroke
deriving DecidableEq, Repr

/-- `src/animation/scene/scene.ts` `ColorAnimation`. -/
structure ColorAnimation where
  fromVal : String
  toVal : String
  property : ColorTarget
deriving DecidableEq, Repr

/-- `src/animation/scene/scene.ts` `AnimationProperties`, with the
`AnimationTrack.type` tag folded into the union. -/
inductive AnimationProperties where
  | move (p : MoveAnimation)
  | rotate (p : RotateAnimation)
  | scale (p : ScaleAnimation)
  | fade (p : FadeAnimation)
  | color (p : ColorAnimation)
deriving DecidableEq, Repr

/-- `src/animation/scene/scene.ts` `AnimationTrack.easing`. -/
inductive EasingName where
  | linear
  | easeInOut
  | easeIn
  | easeOut
deriving DecidableEq, Repr

/-- `src/animation/scene/scene.ts` `AnimationTrack`. -/
structure AnimationTrack where
  objectId : String
  startTime : ℚ
  duration : ℚ
  easing : EasingName
  properties : AnimationProperties
deriving DecidableEq, Repr

/-- `src/animation/scene/scene.ts` `LatexElement`. -/
structure LatexElement where
  equation : String
  position : Point2D
  scale : Option ℚ
deriving DecidableEq, Repr

/-- `src/animation/scene/scene.ts` `AnimationScene`. -/
structure AnimationScene where
  duration : ℚ
  objects : List SceneObject
  animations : List AnimationTrack
  latex : Option LatexElement
  background : Option String
deriving DecidableEq, Repr

/-- The nested `colors` record of `ObjectState`. -/
structure ObjectColors where
  fill : String
  stroke : Option String
deriving DecidableEq, Repr

/-- `src/animation/scene/scene.ts` `ObjectState`.  The `scale` field is a
`ScaleArg` because the source assigns the raw animation value to it
(`state.scale = value as Point2D`), and that value is a bare number for a
finished uniform-scale track. -/
structure ObjectState where
  position : Point2D
  rotation : ℚ
  scale : ScaleArg
  opacity : ℚ
  colors : ObjectColors
deriving DecidableEq, Repr

/-- `src/animation/scene/timeline.ts` `getEasingFunction` (the `default`
branch of the source returns `linear`; the Lean `EasingName` is closed so
the default is unreachable). -/
def getEasingFunction : EasingName → ℚ → ℚ
  | .linear => linear
  | .easeInOut => easeInOutCubic
  | .easeIn => easeInCubic
  | .easeOut => easeOutCubic

/-- Value of one hexadecimal digit; mirrors the `[a-f\d]`
case-insensitive character class plus `parseInt(_, 16)`. -/
def hexDigitVal (c : Char) : Option ℕ :=
  if '0' ≤ c ∧ c ≤ '9' then some (c.toNat - '0'.toNat)
  else if 'a' ≤ c ∧ c ≤ 'f' then some (c.toNat - 'a'.toNat + 10)
  else if 'A' ≤ c ∧ c ≤ 'F' then some (c.toNat - 'A'.toNat + 10)
  else none

/-- An `{r, g, b}` record as produced by `hexToRgb`. -/
structure RgbColor where
  r : ℕ
  g : ℕ
  b : ℕ
deriving DecidableEq, Repr

/-- `src/animation/scene/timeline.ts` `hexToRgb`: the regex
`/^#?([a-f\d]{2})([a-f\d]{2})([a-f\d]{2})$/i` demands an optional `#`
followed by exactly six hex digits. -/
def hexToRgb (hex : String) : Option RgbColor :=
  match (if hex.startsWith "#" then hex.drop 1 else hex).toList with
  | [c1, c2, c3, c4, c5, c6] => do
    let r1 ← hexDigitVal c1
    let r2 ← hexDigitVal c2
    let g1 ← hexDigitVal c3
    let g2 ← hexDigitVal c4
    let b1 ← hexDigitVal c5
    let b2 ← hexDigitVal c6
    pure ⟨16 * r1 + r2, 16 * g1 + g2, 16 * b1 + b2⟩
  | _ => none

/-- JavaScript `Math.round`: half-way cases round toward positive
infinity. -/
def jsRound (q : ℚ) : ℤ := ⌊q + 1/2⌋

/-- `src/animation/scene/timeline.ts` `lerpColor`. -/
def lerpColor (startColor endColor : String) (t : ℚ) : String :=
  match hexToRgb startColor, hexToRgb endColor with
  | some s, some e =>
    let r := jsRound (lerp s.r e.r t)
    let g := jsRound (lerp s.g e.g t)
    let b := jsRound (lerp s.b e.b t)
    "rgb(" ++ toString r ++ ", " ++ toString g ++ ", " ++ toString b ++ ")"
  | _, _ => startColor

/-- The untyped (`any`) value a track evaluation produces:
a point, a number, or a color string. -/
inductive Value where
  | pt (p : Point2D)
  | num (q : ℚ)
  | str (s : String)
deriving DecidableEq, Repr

/-- Injection of a `ScaleArg` into the untyped value space. -/
def ScaleArg.toValue : ScaleArg → Value
  | .pt p => .pt p
  | .num q => .num q

/-- `timeline.ts` coerces a `ScaleArg` with `as Point2D` in the mixed
scalar/point case of scale interpolation; a bare number has no `.x`/`.y`,
so the source produces NaN coordinates there.  No claim depends on that
branch; the coercion is modelled with origin coordinates. -/
def ScaleArg.asPoint : ScaleArg → Point2D
  | .pt p => p
  | .num _ => ⟨0, 0⟩

/-- `src/animation/scene/timeline.ts` `getAnimationEndValue`.  The rotate
case mirrors the truthiness test `rotateProps.rotations ? ... : ...`
(absent or zero `rotations` is falsy). -/
def getAnimationEndValue (animation : AnimationTrack) : Value :=
  match animation.properties with
  | .move p => .pt p.toVal
  | .rotate p =>
    match p.rotations with
    | some r => if r = 0 then .num p.toVal else .num (p.fromVal + r * mathPI * 2)
    | none => .num p.toVal
  | .scale p => p.toVal.toValue
  | .fade p => .num p.toVal
  | .color p => .str p.toVal

/-- `src/animation/scene/timeline.ts` `interpolateAnimation`. -/
def interpolateAnimation (animation : AnimationTrack) (progress : ℚ) : Value :=
  match animation.properties with
  | .move p => .pt (lerpPoint p.fromVal p.toVal progress)
  | .rotate p =>
    match p.rotations with
    | some r =>
      if r = 0 then .num (lerp p.fromVal p.toVal progress)
      else .num (p.fromVal + progress * r * mathPI * 2)
    | none => .num (lerp p.fromVal p.toVal progress)
  | .scale p =>
    match p.fromVal, p.toVal with
    | .num a, .num b =>
      let scaleValue := lerp a b progress
      .pt ⟨scaleValue, scaleValue⟩
    | a, b => .pt (lerpPoint a.asPoint b.asPoint progress)
  | .fade p => .num (lerp p.fromVal p.toVal progress)
  | .color p => .str (lerpColor p.fromVal p.toVal progress)

/-- `src/animation/scene/timeline.ts` `evaluateAnimation`.  `none` models
the `null` return for a track that has not started; the source's locals
`animationEndTime`, `localTime`, `progress` and `easedProgress` are
inlined. -/
def evaluateAnimation (animation : AnimationTrack) (time : ℚ) : Option Value :=
  if time < animation.startTime then
    none
  else if animation.startTime + animation.duration ≤ time then
    some (getAnimationEndValue animation)
  else
    some (interpolateAnimation animation
      (getEasingFunction animation.easing
        ((time - animation.startTime) / animation.duration)))

/-- The `as Point2D` cast used when assigning a move value. -/
def Value.asPoint : Value → Point2D
  | .pt p => p
  | _ => ⟨0, 0⟩

/-- The `as number` cast used when assigning a rotate or fade value. -/
def Value.asNum : Value → ℚ
  | .num q => q
  | _ => 0

/-- The `as string` cast used when assigning a color value. -/
def Value.asStr : Value → String
  | .str s => s
  | _ => ""

/-- The cast in `state.scale = value as Point2D`: at runtime the value is
stored as-is, point or number. -/
def Value.asScale : Value → ScaleArg
  | .pt p => .pt p
  | .num q => .num q
  | .str _ => .pt ⟨0, 0⟩

/-- The loop body of `getObjectStateAtTime`: evaluate one track and
overwrite the field its kind targets (a `null` evaluation contributes
nothing). -/
def applyAnimation (time : ℚ) (state : ObjectState) (animation : AnimationTrack) : ObjectState :=
  match evaluateAnimation animation time with
  | none => state
  | some value =>
    match animation.properties with
    | .move _ => { state with position := value.asPoint }
    | .rotate _ => { state with rotation := value.asNum }
    | .scale _ => { state with scale := value.asScale }
    | .fade _ => { state with opacity := value.asNum }
    | .color colorProps =>
      if colorProps.property = .fill then
        { state with colors := { state.colors with fill := value.asStr } }
      else
        { state with colors := { state.colors with stroke := some value.asStr } }

/-- The initial `ObjectState` built at the top of `getObjectStateAtTime`
(defaults applied exactly as the source's `??`). -/
def initialState (object : SceneObject) : ObjectState :=
  { position := object.initialPosition
    rotation := object.initialRotation.getD 0
    scale := .pt (object.initialScale.getD ⟨1, 1⟩)
    opacity := object.initialOpacity.getD 1
    colors := { fill := object.properties.color
                stroke := object.properties.strokeColor } }

/-- `src/animation/scene/timeline.ts` `getObjectStateAtTime`. -/
def getObjectStateAtTime (object : SceneObject) (animations : List AnimationTrack)
    (time : ℚ) : ObjectState :=
  let objectAnimations := animations.filter (fun anim => anim.objectId == object.id)
  objectAnimations.foldl (applyAnimation time) (initialState object)

/-- `src/animation/scene/timeline.ts` `getSceneStateAtTime`
(the `Map` modelled as an association list in object order). -/
def getSceneStateAtTime (scene : AnimationScene) (time : ℚ) :
    List (String × ObjectState) :=
  scene.objects.map (fun object =>
    (object.id, getObjectStateAtTime object scene.animations time))

/-- `src/animation/scene/scene.ts` `validateScene`, messages and order as
in the source (`errors.push` sequence modelled by list concatenation). -/
def validateScene (scene : AnimationScene) : List String :=
  (if scene.duration ≤ 0 then ["Scene duration must be positive"] else [])
  ++ (if scene.objects.length = 0 then ["Scene must contain at least one object"] else [])
  ++ scene.animations.flatMap (fun animation =>
    (if (scene.objects.map (fun obj => obj.id)).contains animation.objectId then []
     else ["Animation references unknown object: " ++ animation.objectId])
    ++ (if animation.startTime < 0 then
        ["Animation start time cannot be negative: " ++ animation.objectId] else [])
    ++ (if scene.duration < animation.startTime + animation.duration then
        ["Animation extends beyond scene duration: " ++ animation.objectId] else []))

/-! ### Frame generator (`src/animation/renderer/frame-generator.ts`)

The frame loop divides by `totalFrames - 1` with plain JavaScript `/`,
so the special IEEE values are modelled explicitly. -/

/-- A JavaScript number: a finite value, `NaN`, or a signed infinity. -/
inductive JsVal where
  | num (q : ℚ)
  | nan
  | posInf
  | negInf
deriving DecidableEq, Repr

/-- JavaScript division `a / b` on finite operands. -/
def jsDiv (a b : ℚ) : JsVal :=
  if b ≠ 0 then .num (a / b)
  else if a = 0 then .nan
  else if 0 < a then .posInf
  else .negInf

/-- JavaScript multiplication of a possibly-special value by a finite
number (used for `time = progress * duration`). -/
def jsMul (v : JsVal) (d : ℚ) : JsVal :=
  match v with
  | .num q => .num (q * d)
  | .nan => .nan
  | .posInf => if 0 < d then .posInf else if d < 0 then .negInf else .nan
  | .negInf => if 0 < d then .negInf else if d < 0 then .posInf else .nan

/-- The frame generator's easing step applied to a JavaScript number.  The
repository instantiates the generator's easing hook only with the easing
functions of `interpolation.ts` (the scene pipeline passes `linear`); each
of `linear`, `easeInCubic`, `easeOutCubic`, `easeInOutCubic` maps NaN to
NaN and each signed infinity to itself, which is what the catch-all arm
encodes. -/
def easeJsVal (easing : EasingName) (v : JsVal) : JsVal :=
  match v with
  | .num q => .num (getEasingFunction easing q)
  | v => v

/-- `src/animation/renderer/frame-generator.ts` `FrameConfig`. -/
structure FrameConfig where
  width : ℚ
  height : ℚ
  fps : ℚ
  duration : ℚ
  backgroundColor : String
deriving DecidableEq, Repr

/-- `src/animation/renderer/frame-generator.ts` `AnimationFrame` (the
record handed to the render callback). -/
structure AnimationFrame where
  progress : JsVal
  easedProgress : JsVal
  frameNumber : ℕ
  time : JsVal
deriving DecidableEq, Repr

/-- `const totalFrames = this.config.fps * this.config.duration`. -/
def totalFrames (config : FrameConfig) : ℚ :=
  config.fps * config.duration

/-- Number of iterations of `for (let n = 0; n < totalFrames; n++)`:
the count of naturals below `totalFrames`. -/
def numFrames (config : FrameConfig) : ℕ :=
  (⌈totalFrames config⌉).toNat

/-- The body of the frame loop: the `AnimationFrame` record built for one
`frameNumber` (shared verbatim by `generateAnimation` and
`generateFrames`). -/
def frameAt (config : FrameConfig) (easing : EasingName) (frameNumber : ℕ) :
    AnimationFrame :=
  let progress := jsDiv (frameNumber : ℚ) (totalFrames config - 1)
  let easedProgress := easeJsVal easing progress
  let time := jsMul progress config.duration
  { progress := progress
    easedProgress := easedProgress
    frameNumber := frameNumber
    time := time }

/-- The sequence of frame records produced by the loop of
`FrameGenerator.generateFrames` / `generateAnimation`. -/
def generateFrames (config : FrameConfig) (easing : EasingName) :
    List AnimationFrame :=
  (List.range (numFrames config)).map (frameAt config easing)

/-! ### Path interpreter (`renderSVGPath` in
`src/animation/renderer/latex-renderer.ts`) -/

/-- A drawing primitive issued against the canvas context. -/
inductive DrawOp where
  | beginPath
  | moveTo (x y : ℚ)
  | lineTo (x y : ℚ)
  | bezierCurveTo (c1x c1y c2x c2y x y : ℚ)
  | quadraticCurveTo (cx cy x y : ℚ)
  | closePath
deriving DecidableEq, Repr

/-- The interpreter's mutable locals:
`currentX, currentY, startX, startY, lastControlX, lastControlY`. -/
structure PathState where
  currentX : ℚ
  currentY : ℚ
  startX : ℚ
  startY : ℚ
  lastControlX : ℚ
  lastControlY : ℚ
deriving DecidableEq, Repr

/-- All six locals start at `0`. -/
def initialPathState : PathState :=
  ⟨0, 0, 0, 0, 0, 0⟩

/-- The command letters of the chunking regex (the char class
`MmLlHhVvCcSsQqTtAaZz`). -/
def isCommandLetter (c : Char) : Bool :=
  ['M','m','L','l','H','h','V','v','C','c','S','s','Q','q','T','t','A','a','Z','z'].contains c

/-- Split off the longest prefix of non-command characters (the `[^...]*`
part of a chunk): returns it together with the rest. -/
def spanNonCommand : List Char → List Char × List Char
  | [] => ([], [])
  | c :: t =>
    if isCommandLetter c then ([], c :: t)
    else
      let r := spanNonCommand t
      (c :: r.1, r.2)

/-- One step of the chunking: `spanNonCommand` removes at least nothing
and the head is always consumed, so `cs.length + 1` units of fuel never
run out. -/
def splitCommandsAux : ℕ → List Char → List (Char × List Char)
  | 0, _ => []
  | _, [] => []
  | fuel + 1, c :: rest =>
    if isCommandLetter c then
      let body := spanNonCommand rest
      (c, body.1) :: splitCommandsAux fuel body.2
    else
      splitCommandsAux fuel rest

/-- Chunking of the path string: each chunk is a command letter plus the
characters up to (not including) the next command letter; characters
before the first command letter belong to no chunk. -/
def splitCommands (cs : List Char) : List (Char × List Char) :=
  splitCommandsAux (cs.length + 1) cs

/-- Numeric value of a digit string (most significant first). -/
def digitsToNat (ds : List Char) : ℕ :=
  ds.foldl (fun acc c => 10 * acc + (c.toNat - '0'.toNat)) 0

/-- Split off the longest prefix of decimal digits. -/
def spanDigits : List Char → List Char × List Char
  | [] => ([], [])
  | c :: t =>
    if c.isDigit then
      let r := spanDigits t
      (c :: r.1, r.2)
    else ([], c :: t)

/-- One anchored attempt of the number pattern (optional minus, digits,
optional dot, at least one digit — the literal regex the source scans
with) at the head of `cs`, resolved the way the backtracking engine
resolves it: on success, the parsed value and the characters after the
match. -/
def parseNumAt (cs : List Char) : Option (ℚ × List Char) :=
  let negSplit : Bool × List Char :=
    match cs with
    | c :: t => if c = '-' then (true, t) else (false, cs)
    | [] => (false, cs)
  let neg := negSplit.1
  let intPart := spanDigits negSplit.2
  let d1 := intPart.1
  let cs2 := intPart.2
  let sign : ℚ := if neg then -1 else 1
  match cs2 with
  | c :: cs3 =>
    if c = '.' then
      let fracPart := spanDigits cs3
      let d2 := fracPart.1
      if d2 ≠ [] then
        some (sign * ((digitsToNat d1 : ℚ) + (digitsToNat d2 : ℚ) / 10 ^ d2.length), fracPart.2)
      else if d1 ≠ [] then
        -- Nothing after the dot for the final digit group: the engine
        -- backtracks over the optional dot and the match ends before it.
        some (sign * (digitsToNat d1 : ℚ), cs2)
      else none
    else
      if d1 ≠ [] then some (sign * (digitsToNat d1 : ℚ), cs2) else none
  | [] =>
    if d1 ≠ [] then some (sign * (digitsToNat d1 : ℚ), cs2) else none

/-- `matchAll` of the number pattern: repeatedly attempt a match,
advancing one character when none starts here.  Every step consumes at
least one character, so `cs.length + 1` units of fuel never run out. -/
def extractNumsAux : ℕ → List Char → List ℚ
  | 0, _ => []
  | _, [] => []
  | fuel + 1, cs =>
    match parseNumAt cs with
    | some (q, rest) => q :: extractNumsAux fuel rest
    | none => extractNumsAux fuel cs.tail

/-- The numeric argument list of one command chunk: the source spreads
`command.slice(1).trim().matchAll` over the number pattern and maps
`parseFloat` (trimming cannot change the matches). -/
def getCoords (body : List Char) : List ℚ :=
  extractNumsAux (body.length + 1) body

/-- The full tokenizer: command chunks with their extracted numbers. -/
def tokenizePath (pathData : String) : List (Char × List ℚ) :=
  (splitCommands pathData.toList).map (fun p => (p.1, getCoords p.2))

/-- One arm of the interpreter's `switch`: consume a single command
occurrence, producing the next cursor state and the emitted drawing
operations.  Each case is guarded by the source's `coords.length >= n`
check; a guard failure (and the unhandled `A`) falls through to the
no-op default. -/
def processCommand (state : PathState) (letter : Char) (coords : List ℚ) :
    PathState × List DrawOp :=
  let isRelative := letter.isLower
  match letter.toUpper, coords with
  | 'M', c0 :: c1 :: _ =>
    let newX := if isRelative then state.currentX + c0 else c0
    let newY := if isRelative then state.currentY + c1 else c1
    ({ state with currentX := newX, currentY := newY, startX := newX, startY := newY },
     [.moveTo newX newY])
  | 'L', c0 :: c1 :: _ =>
    let newX := if isRelative then state.currentX + c0 else c0
    let newY := if isRelative then state.currentY + c1 else c1
    ({ state with currentX := newX, currentY := newY }, [.lineTo newX newY])
  | 'H', c0 :: _ =>
    let newX := if isRelative then state.currentX + c0 else c0
    ({ state with currentX := newX }, [.lineTo newX state.currentY])
  | 'V', c0 :: _ =>
    let newY := if isRelative then state.currentY + c0 else c0
    ({ state with currentY := newY }, [.lineTo state.currentX newY])
  | 'C', c0 :: c1 :: c2 :: c3 :: c4 :: c5 :: _ =>
    let cp1x := if isRelative then state.currentX + c0 else c0
    let cp1y := if isRelative then state.currentY + c1 else c1
    let cp2x := if isRelative then state.currentX + c2 else c2
    let cp2y := if isRelative then state.currentY + c3 else c3
    let newX := if isRelative then state.currentX + c4 else c4
    let newY := if isRelative then state.currentY + c5 else c5
    ({ state with currentX := newX, currentY := newY,
                  lastControlX := cp2x, lastControlY := cp2y },
     [.bezierCurveTo cp1x cp1y cp2x cp2y newX newY])
  | 'S', c0 :: c1 :: c2 :: c3 :: _ =>
    let scp1x := 2 * state.currentX - state.lastControlX
    let scp1y := 2 * state.currentY - state.lastControlY
    let scp2x := if isRelative then state.currentX + c0 else c0
    let scp2y := if isRelative then state.currentY + c1 else c1
    let newX := if isRelative then state.currentX + c2 else c2
    let newY := if isRelative then state.currentY + c3 else c3
    ({ state with currentX := newX, currentY := newY,
                  lastControlX := scp2x, lastControlY := scp2y },
     [.bezierCurveTo scp1x scp1y scp2x scp2y newX newY])
  | 'Q', c0 :: c1 :: c2 :: c3 :: _ =>
    let qcp1x := if isRelative then state.currentX + c0 else c0
    let qcp1y := if isRelative then state.currentY + c1 else c1
    let newX := if isRelative then state.currentX + c2 else c2
    let newY := if isRelative then state.currentY + c3 else c3
    ({ state with currentX := newX, currentY := newY,
                  lastControlX := qcp1x, lastControlY := qcp1y },
     [.quadraticCurveTo qcp1x qcp1y newX newY])
  | 'T', c0 :: c1 :: _ =>
    let tcp1x := 2 * state.currentX - state.lastControlX
    let tcp1y := 2 * state.currentY - state.lastControlY
    let newX := if isRelative then state.currentX + c0 else c0
    let newY := if isRelative then state.currentY + c1 else c1
    ({ state with currentX := newX, currentY := newY,
                  lastControlX := tcp1x, lastControlY := tcp1y },
     [.quadraticCurveTo tcp1x tcp1y newX newY])
  | 'Z', _ =>
    ({ state with currentX := state.startX, currentY := state.startY },
     [.lineTo state.startX state.startY, .closePath])
  | _, _ => (state, [])

/-- The interpreter's main loop over command chunks. -/
def runCommands (state : PathState) :
    List (Char × List ℚ) → PathState × List DrawOp
  | [] => (state, [])
  | (letter, coords) :: rest =>
    let step := processCommand state letter coords
    let remainder := runCommands step.1 rest
    (remainder.1, step.2 ++ remainder.2)

/-- `renderSVGPath`: the `if (!pathData) return` guard, then
`ctx.beginPath()`, then the command loop. -/
def renderSVGPath (pathData : String) : List DrawOp :=
  if pathData = "" then []
  else .beginPath :: (runCommands initialPathState (tokenizePath pathData)).2

/-! ### Scene generation entry point
(`generateSceneAnimation` in `src/animation/scene-generator.ts`) -/

/-- Outcome of the scene-generation entry point, restricted to the
decision the claims are about: does the call proceed into rendering or
throw on validation?  The I/O around the decision (LaTeX compilation,
file naming, encoding) does not influence it. -/
inductive RenderOutcome where
  | rendered
  | validationError (message : String)
deriving DecidableEq, Repr

/-- The validation gate at the top of `generateSceneAnimation`:
`if (errors.length > 0) throw new Error(...)`, otherwise the function
continues into frame generation. -/
def generateSceneAnimation (scene : AnimationScene) : RenderOutcome :=
  let errors := validateScene scene
  if 0 < errors.length then
    .validationError ("Scene validation failed: " ++ String.intercalate ", " errors)
  else
    .rendered


/-! ### Derived notions used by the statements -/

/-- The `ObjectState` field a track kind targets (position for move,
rotation for rotate, scale for scale, opacity for fade, fill or stroke
for color according to its `property` field). -/
inductive PropertyTarget where
  | position
  | rotation
  | scale
  | opacity
  | fill
  | stroke
deriving DecidableEq, Repr

/-- Which state field a track's payload targets. -/
def AnimationProperties.target : AnimationProperties → PropertyTarget
  | .move _ => .position
  | .rotate _ => .rotation
  | .scale _ => .scale
  | .fade _ => .opacity
  | .color p =>
    match p.property with
    | .fill => .fill
    | .stroke => .stroke

/-- Read one targeted field of an `ObjectState` as an untyped value
(`none` only for an absent stroke color). -/
def readProp (state : ObjectState) : PropertyTarget → Option Value
  | .position => some (.pt state.position)
  | .rotation => some (.num state.rotation)
  | .scale => some state.scale.toValue
  | .opacity => some (.num state.opacity)
  | .fill => some (.str state.colors.fill)
  | .stroke => state.colors.stroke.map Value.str

/-- The value a started track contributes at `time` (the end value once
past the end, the eased interpolation while active); equals the `some`
payload of `evaluateAnimation` whenever `startTime ≤ time`. -/
def trackValueAt (animation : AnimationTrack) (time : ℚ) : Value :=
  if animation.startTime + animation.duration ≤ time then
    getAnimationEndValue animation
  else
    interpolateAnimation animation
      (getEasingFunction animation.easing
        ((time - animation.startTime) / animation.duration))

/-- Required arity of each path command (2 for `M`/`L`/`T`, 1 for
`H`/`V`, 6 for `C`, 4 for `S`/`Q`): the bound each `coords.length >= n`
guard in the interpreter checks. -/
def requiredArity (c : Char) : ℕ :=
  if c = 'M' ∨ c = 'L' ∨ c = 'T' then 2
  else if c = 'H' ∨ c = 'V' then 1
  else if c = 'C' then 6
  else if c = 'S' ∨ c = 'Q' then 4
  else 0

/-! ### Concrete inputs used by witnesses and counterexamples -/

/-- The track built by `createRotateAnimation(id, 2, 0, 1, 'linear')`:
`rotations: 2, duration: 1, startTime: 0`, linear easing, `from`/`to`
left at the placeholder `0`. -/
def rotateTrackExample : AnimationTrack :=
  { objectId := "spinner", startTime := 0, duration := 1, easing := .linear,
    properties := .rotate { fromVal := 0, toVal := 0, rotations := some 2 } }

/-- A red triangle used by several concrete scenes. -/
def objC2 : SceneObject :=
  { id := "obj1"
    properties := .triangle
      { size := 50, color := "#ff0000", strokeColor := some "#00ff00",
        strokeWidth := some 2 }
    initialPosition := ⟨0, 0⟩
    initialRotation := some 0
    initialScale := some ⟨1, 1⟩
    initialOpacity := some 1 }

/-- A move track that starts exactly at time 0 with a `from` point that
differs from the object's initial position. -/
def moveAtZeroTrack : AnimationTrack :=
  { objectId := "obj1", startTime := 0, duration := 1, easing := .linear,
    properties := .move { fromVal := ⟨1, 2⟩, toVal := ⟨3, 4⟩ } }

/-- A scene whose only track starts at time 0 (allowed by the claim's
"no `startTime < 0`" hypothesis). -/
def sceneC2 : AnimationScene :=
  { duration := 5, objects := [objC2], animations := [moveAtZeroTrack],
    latex := none, background := none }

/-- The same scene with the track delayed to start strictly after 0. -/
def sceneC2ok : AnimationScene :=
  { duration := 5, objects := [objC2],
    animations := [{ moveAtZeroTrack with startTime := 1 }],
    latex := none, background := none }

/-- First of two overlapping move tracks on the same object. -/
def moveTrackA : AnimationTrack :=
  { objectId := "obj1", startTime := 0, duration := 10, easing := .linear,
    properties := .move { fromVal := ⟨0, 0⟩, toVal := ⟨100, 0⟩ } }

/-- Second (later-declared) of two overlapping move tracks on the same
object. -/
def moveTrackB : AnimationTrack :=
  { objectId := "obj1", startTime := 0, duration := 10, easing := .linear,
    properties := .move { fromVal := ⟨0, 0⟩, toVal := ⟨0, 100⟩ } }

/-- A fade track referencing an object id that no object declares. -/
def ghostTrack : AnimationTrack :=
  { objectId := "ghost", startTime := 0, duration := 1, easing := .linear,
    properties := .fade { fromVal := 0, toVal := 1 } }

/-- A scene with an animation referencing an object id that no object
declares. -/
def sceneBadRef : AnimationScene :=
  { duration := 5, objects := [objC2], animations := [ghostTrack],
    latex := none, background := none }

/-- A track with `startTime + duration = 6` exceeding a scene duration
of 5. -/
def overlongTrack : AnimationTrack :=
  { objectId := "obj1", startTime := 4, duration := 2, easing := .linear,
    properties := .move { fromVal := ⟨0, 0⟩, toVal := ⟨3, 4⟩ } }

/-- A scene valid except for one track with
`startTime + duration > scene.duration` (4 + 2 > 5). -/
def sceneOverlong : AnimationScene :=
  { duration := 5, objects := [objC2], animations := [overlongTrack],
    latex := none, background := none }

/-- A 1-frame configuration: `totalFrames = fps * duration = 1`. -/
def frameCfgOne : FrameConfig :=
  { width := 16, height := 16, fps := 1, duration := 1,
    backgroundColor := "#000000" }

/-- A 2-frame configuration. -/
def frameCfgTwo : FrameConfig :=
  { width := 16, height := 16, fps := 2, duration := 1,
    backgroundColor := "#000000" }

/-- A zero-duration fade track. -/
def fadeZeroTrack : AnimationTrack :=
  { objectId := "obj1", startTime := 2, duration := 0, easing := .linear,
    properties := .fade { fromVal := 0, toVal := 1 } }


/-! ## Theorems -/

/-- A track that has started always evaluates to `some` of its
contributed value. -/
theorem evaluateAnimation_of_started {tr : AnimationTrack} {t : ℚ}
    (h : tr.startTime ≤ t) :
    evaluateAnimation tr t = some (trackValueAt tr t) := by
  unfold evaluateAnimation trackValueAt
  rw [if_neg (not_lt.mpr h)]
  by_cases h2 : tr.startTime + tr.duration ≤ t
  · rw [if_pos h2, if_pos h2]
  · rw [if_neg h2, if_neg h2]

/-- A track that has not started evaluates to `none`. -/
theorem evaluateAnimation_of_not_started {tr : AnimationTrack} {t : ℚ}
    (h : t < tr.startTime) :
    evaluateAnimation tr t = none := by
  unfold evaluateAnimation
  rw [if_pos h]

/-- `easeInCubic` is monotone on the nonnegatives. -/
theorem easeInCubic_mono {s t : ℚ} (hs : 0 ≤ s) (hst : s ≤ t) :
    easeInCubic s ≤ easeInCubic t := by
  unfold easeInCubic
  nlinarith [mul_nonneg hs hs, mul_nonneg (hs.trans hst) (hs.trans hst),
    mul_nonneg hs (hs.trans hst)]

/-- `easeOutCubic` is monotone below 1. -/
theorem easeOutCubic_mono {s t : ℚ} (hst : s ≤ t) (ht : t ≤ 1) :
    easeOutCubic s ≤ easeOutCubic t := by
  unfold easeOutCubic
  have h1 : (0:ℚ) ≤ 1 - t := by linarith
  have h2 : 1 - t ≤ 1 - s := by linarith
  have h3 := pow_le_pow_left₀ h1 h2 3
  linarith

/-- `easeInOutCubic` is monotone on `[0, 1]`. -/
theorem easeInOutCubic_mono {s t : ℚ} (hs : 0 ≤ s) (hst : s ≤ t) (ht : t ≤ 1) :
    easeInOutCubic s ≤ easeInOutCubic t := by
  unfold easeInOutCubic
  by_cases h1 : s < 1/2
  · by_cases h2 : t < 1/2
    · rw [if_pos h1, if_pos h2]
      nlinarith [mul_nonneg hs hs, mul_nonneg (hs.trans hst) (hs.trans hst),
        mul_nonneg hs (hs.trans hst)]
    · rw [if_pos h1, if_neg h2]
      push_neg at h2
      have e1 : 4*s*s*s ≤ 1/2 := by nlinarith [mul_nonneg hs hs]
      have hx0 : (0:ℚ) ≤ -2*t + 2 := by linarith
      have hx1 : -2*t + 2 ≤ 1 := by linarith
      have e2 : (-2*t + 2)^3 ≤ 1 := by
        calc (-2*t + 2)^3 ≤ 1^3 := pow_le_pow_left₀ hx0 hx1 3
        _ = 1 := one_pow 3
      linarith
  · push_neg at h1
    have h2 : ¬ t < 1/2 := by push_neg; linarith
    rw [if_neg (by push_neg; exact h1 : ¬ s < 1/2), if_neg h2]
    have hx0 : (0:ℚ) ≤ -2*t + 2 := by linarith
    have hx2 : -2*t + 2 ≤ -2*s + 2 := by linarith
    have h3 := pow_le_pow_left₀ hx0 hx2 3
    linarith

/-- C9: every easing function selectable by the timeline evaluator's
`getEasingFunction` (`linear`, `easeInCubic`, `easeOutCubic`,
`easeInOutCubic`) maps 0 to 0 and 1 to 1 and is monotone non-decreasing
on `[0, 1]`. -/
theorem claim_C9_easing_functions (e : EasingName) :
    getEasingFunction e 0 = 0 ∧ getEasingFunction e 1 = 1 ∧
    ∀ s t : ℚ, 0 ≤ s → s ≤ t → t ≤ 1 →
      getEasingFunction e s ≤ getEasingFunction e t := by
  cases e
  case linear =>
    exact ⟨rfl, rfl, fun s t _ hst _ => hst⟩
  case easeInOut =>
    refine ⟨by norm_num [getEasingFunction, easeInOutCubic],
      by norm_num [getEasingFunction, easeInOutCubic], ?_⟩
    intro s t hs hst ht
    exact easeInOutCubic_mono hs hst ht
  case easeIn =>
    refine ⟨by norm_num [getEasingFunction, easeInCubic],
      by norm_num [getEasingFunction, easeInCubic], ?_⟩
    intro s t hs hst _
    exact easeInCubic_mono hs hst
  case easeOut =>
    refine ⟨by norm_num [getEasingFunction, easeOutCubic],
      by norm_num [getEasingFunction, easeOutCubic], ?_⟩
    intro s t _ hst ht
    exact easeOutCubic_mono hst ht

/-- Witness for C9 at a concrete easing and concrete arguments. -/
theorem claim_C9_easing_functions_witness :
    getEasingFunction EasingName.easeInOut (1/4 : ℚ)
      ≤ getEasingFunction EasingName.easeInOut (3/4 : ℚ) :=
  (claim_C9_easing_functions EasingName.easeInOut).2.2 (1/4) (3/4)
    (by norm_num) (by norm_num) (by norm_num)


/-- C1: past its end (`startTime + duration ≤ t`, with the data model's
`duration ≥ 0`), a track contributes exactly `getAnimationEndValue`:
`to` for move/scale/fade/color, and `from + rotations·2π` (not the raw
`to`) for a rotate payload with non-zero `rotations`.  In particular the
track of `createRotateAnimation(_, 2, 0, 1, 'linear')` evaluates to
`4π` at every `t ≥ 1` and to `2π` at `t = 1/2`. -/
theorem claim_C1_end_value :
    (∀ (tr : AnimationTrack) (t : ℚ), 0 ≤ tr.duration →
      tr.startTime + tr.duration ≤ t →
      evaluateAnimation tr t = some (getAnimationEndValue tr)
      ∧ (∀ p, tr.properties = .move p → getAnimationEndValue tr = .pt p.toVal)
      ∧ (∀ p, tr.properties = .scale p → getAnimationEndValue tr = p.toVal.toValue)
      ∧ (∀ p, tr.properties = .fade p → getAnimationEndValue tr = .num p.toVal)
      ∧ (∀ p, tr.properties = .color p → getAnimationEndValue tr = .str p.toVal)
      ∧ (∀ p r, tr.properties = .rotate p → p.rotations = some r → r ≠ 0 →
          getAnimationEndValue tr = .num (p.fromVal + r * mathPI * 2)))
    ∧ (∀ t : ℚ, 1 ≤ t →
        evaluateAnimation rotateTrackExample t = some (.num (4 * mathPI)))
    ∧ evaluateAnimation rotateTrackExample (1/2) = some (.num (2 * mathPI)) := by
  refine ⟨?_, ?_, ?_⟩
  · intro tr t hdur hle
    have hstart : tr.startTime ≤ t := by linarith
    refine ⟨?_, ?_, ?_, ?_, ?_, ?_⟩
    · unfold evaluateAnimation
      rw [if_neg (not_lt.mpr hstart), if_pos hle]
    · intro p hp; simp [getAnimationEndValue, hp]
    · intro p hp; simp [getAnimationEndValue, hp]
    · intro p hp; simp [getAnimationEndValue, hp]
    · intro p hp; simp [getAnimationEndValue, hp]
    · intro p r hp hr hr0; simp [getAnimationEndValue, hp, hr, hr0]
  · intro t ht
    unfold evaluateAnimation
    rw [if_neg (by rw [rotateTrackExample]; norm_num; linarith),
      if_pos (by rw [rotateTrackExample]; norm_num; linarith)]
    norm_num [rotateTrackExample, getAnimationEndValue]
    ring
  · norm_num [evaluateAnimation, rotateTrackExample, interpolateAnimation,
      getEasingFunction, linear]
    ring

/-- Witness for C1: the example rotate track evaluated at `t = 1`. -/
theorem claim_C1_end_value_witness :
    evaluateAnimation rotateTrackExample 1 = some (.num (4 * mathPI)) :=
  claim_C1_end_value.2.1 1 (by norm_num)

/-- C10: a zero-duration track never reaches the interpolation branch
(whose guard `startTime ≤ t < startTime + duration` is unsatisfiable),
so its evaluation is the end value once started and nothing before. -/
theorem claim_C10_zero_duration (tr : AnimationTrack) (t : ℚ)
    (hdur : tr.duration = 0) :
    evaluateAnimation tr t =
      (if t < tr.startTime then none else some (getAnimationEndValue tr))
    ∧ ¬ (tr.startTime ≤ t ∧ t < tr.startTime + tr.duration) := by
  constructor
  · unfold evaluateAnimation
    by_cases h : t < tr.startTime
    · rw [if_pos h, if_pos h]
    · rw [if_neg h, if_neg h, if_pos (by rw [hdur]; push_neg at h; linarith)]
  · rintro ⟨h1, h2⟩
    rw [hdur] at h2
    linarith

/-- Witness for C10: the zero-duration fade track at `t = 3` (started)
and the resulting end value, plus the pre-start case at `t = 1`. -/
theorem claim_C10_zero_duration_witness :
    evaluateAnimation fadeZeroTrack 3 = some (Value.num 1)
    ∧ evaluateAnimation fadeZeroTrack 1 = none := by
  constructor
  · rw [(claim_C10_zero_duration fadeZeroTrack 3 (by norm_num [fadeZeroTrack])).1]
    norm_num [fadeZeroTrack, getAnimationEndValue]
  · rw [(claim_C10_zero_duration fadeZeroTrack 1 (by norm_num [fadeZeroTrack])).1]
    norm_num [fadeZeroTrack]


/-- Folding tracks that all evaluate to `null` leaves the state alone. -/
theorem foldl_applyAnimation_inactive (t : ℚ) :
    ∀ (l : List AnimationTrack) (s : ObjectState),
      (∀ tr ∈ l, evaluateAnimation tr t = none) →
      l.foldl (applyAnimation t) s = s
  | [], _, _ => rfl
  | tr :: rest, s, h => by
    have h1 : evaluateAnimation tr t = none := h tr (List.mem_cons_self _ _)
    have h2 : applyAnimation t s tr = s := by
      unfold applyAnimation
      rw [h1]
    rw [List.foldl_cons, h2]
    exact foldl_applyAnimation_inactive t rest s
      (fun a ha => h a (List.mem_cons_of_mem _ ha))

/-- C2 fails as stated: in `sceneC2` no track has `startTime < 0`, yet the
state of its object at time 0 is not the initial state — the track with
`startTime = 0` is already applicable at `t = 0` and overwrites the
position with its `from` point. -/
theorem claim_C2_counterexample :
    (∀ tr ∈ sceneC2.animations, ¬ tr.startTime < 0)
    ∧ objC2 ∈ sceneC2.objects
    ∧ getObjectStateAtTime objC2 sceneC2.animations 0 ≠ initialState objC2 := by
  refine ⟨?_, ?_, ?_⟩
  · intro tr htr
    simp only [sceneC2, List.mem_singleton] at htr
    norm_num [htr, moveAtZeroTrack]
  · simp [sceneC2]
  · intro hcontra
    have : (getObjectStateAtTime objC2 sceneC2.animations 0).position = ⟨1, 2⟩ := by
      norm_num [getObjectStateAtTime, sceneC2, moveAtZeroTrack, objC2, applyAnimation,
        evaluateAnimation, interpolateAnimation, getEasingFunction, linear,
        lerpPoint, lerp, initialState, Value.asPoint]
    rw [hcontra] at this
    norm_num [initialState, objC2] at this

/-- C2 amended: if every track starts strictly after time 0, the state at
time 0 is exactly the initial state (initial position, rotation, scale,
opacity, and the fill/stroke colors from the shape properties). -/
theorem claim_C2_initial_state (scene : AnimationScene) (obj : SceneObject)
    (_hobj : obj ∈ scene.objects)
    (hpos : ∀ tr ∈ scene.animations, 0 < tr.startTime) :
    getObjectStateAtTime obj scene.animations 0 = initialState obj := by
  unfold getObjectStateAtTime
  apply foldl_applyAnimation_inactive
  intro tr htr
  have hmem : tr ∈ scene.animations := List.mem_of_mem_filter htr
  exact evaluateAnimation_of_not_started (hpos tr hmem)

/-- Witness for C2 (amended) on the delayed-track scene. -/
theorem claim_C2_initial_state_witness :
    getObjectStateAtTime objC2 sceneC2ok.animations 0 = initialState objC2 :=
  claim_C2_initial_state sceneC2ok objC2 (by simp [sceneC2ok])
    (by intro tr htr
        simp only [sceneC2ok, List.mem_singleton] at htr
        norm_num [htr, moveAtZeroTrack])


/-- A move track always contributes a point value. -/
theorem trackValueAt_move {tr : AnimationTrack} {p : MoveAnimation}
    (hp : tr.properties = .move p) (t : ℚ) :
    ∃ q, trackValueAt tr t = .pt q := by
  unfold trackValueAt
  by_cases h : tr.startTime + tr.duration ≤ t
  · rw [if_pos h]; simp [getAnimationEndValue, hp]
  · rw [if_neg h]; simp [interpolateAnimation, hp]

/-- A rotate track always contributes a numeric value. -/
theorem trackValueAt_rotate {tr : AnimationTrack} {p : RotateAnimation}
    (hp : tr.properties = .rotate p) (t : ℚ) :
    ∃ q, trackValueAt tr t = .num q := by
  unfold trackValueAt
  by_cases h : tr.startTime + tr.duration ≤ t
  · rw [if_pos h]
    simp only [getAnimationEndValue, hp]
    cases hr : p.rotations with
    | none => exact ⟨_, rfl⟩
    | some r =>
      by_cases hr0 : r = 0
      · exact ⟨p.toVal, by simp [hr0]⟩
      · exact ⟨p.fromVal + r * mathPI * 2, by simp [hr0]⟩
  · rw [if_neg h]
    simp only [interpolateAnimation, hp]
    cases hr : p.rotations with
    | none => exact ⟨_, rfl⟩
    | some r =>
      by_cases hr0 : r = 0
      · exact ⟨lerp p.fromVal p.toVal
          (getEasingFunction tr.easing ((t - tr.startTime) / tr.duration)),
          by simp [hr0]⟩
      · exact ⟨p.fromVal +
          getEasingFunction tr.easing ((t - tr.startTime) / tr.duration)
            * r * mathPI * 2,
          by simp [hr0]⟩

/-- A scale track contributes a point or a number, never a string. -/
theorem trackValueAt_scale {tr : AnimationTrack} {p : ScaleAnimation}
    (hp : tr.properties = .scale p) (t : ℚ) :
    (∃ q, trackValueAt tr t = .pt q) ∨ (∃ q, trackValueAt tr t = .num q) := by
  unfold trackValueAt
  by_cases h : tr.startTime + tr.duration ≤ t
  · rw [if_pos h]
    simp only [getAnimationEndValue, hp]
    cases hto : p.toVal with
    | pt q => left; exact ⟨q, by simp [ScaleArg.toValue]⟩
    | num q => right; exact ⟨q, by simp [ScaleArg.toValue]⟩
  · rw [if_neg h]
    simp only [interpolateAnimation, hp]
    cases hfrom : p.fromVal with
    | pt q1 =>
      cases hto : p.toVal with
      | pt q2 => left; exact ⟨_, rfl⟩
      | num q2 => left; exact ⟨_, rfl⟩
    | num q1 =>
      cases hto : p.toVal with
      | pt q2 => left; exact ⟨_, rfl⟩
      | num q2 => left; exact ⟨_, rfl⟩

/-- A fade track always contributes a numeric value. -/
theorem trackValueAt_fade {tr : AnimationTrack} {p : FadeAnimation}
    (hp : tr.properties = .fade p) (t : ℚ) :
    ∃ q, trackValueAt tr t = .num q := by
  unfold trackValueAt
  by_cases h : tr.startTime + tr.duration ≤ t
  · rw [if_pos h]; simp [getAnimationEndValue, hp]
  · rw [if_neg h]; simp [interpolateAnimation, hp]

/-- A color track always contributes a string value. -/
theorem trackValueAt_color {tr : AnimationTrack} {p : ColorAnimation}
    (hp : tr.properties = .color p) (t : ℚ) :
    ∃ s, trackValueAt tr t = .str s := by
  unfold trackValueAt
  by_cases h : tr.startTime + tr.duration ≤ t
  · rw [if_pos h]; simp [getAnimationEndValue, hp]
  · rw [if_neg h]; simp [interpolateAnimation, hp]

/-- Applying a started track sets its targeted field to exactly the
track's contributed value. -/
theorem readProp_applyAnimation_target (s : ObjectState) (tr : AnimationTrack)
    (t : ℚ) (h : tr.startTime ≤ t) :
    readProp (applyAnimation t s tr) tr.properties.target
      = some (trackValueAt tr t) := by
  unfold applyAnimation
  rw [evaluateAnimation_of_started h]
  cases htr : tr.properties with
  | move p =>
    obtain ⟨q, hq⟩ := trackValueAt_move htr t
    simp [htr, AnimationProperties.target, readProp, hq, Value.asPoint]
  | rotate p =>
    obtain ⟨q, hq⟩ := trackValueAt_rotate htr t
    simp [htr, AnimationProperties.target, readProp, hq, Value.asNum]
  | scale p =>
    rcases trackValueAt_scale htr t with ⟨q, hq⟩ | ⟨q, hq⟩ <;>
      simp [htr, AnimationProperties.target, readProp, hq, Value.asScale,
        ScaleArg.toValue]
  | fade p =>
    obtain ⟨q, hq⟩ := trackValueAt_fade htr t
    simp [htr, AnimationProperties.target, readProp, hq, Value.asNum]
  | color p =>
    obtain ⟨q, hq⟩ := trackValueAt_color htr t
    cases hprop : p.property with
    | fill =>
      simp [htr, AnimationProperties.target, hprop, readProp, hq, Value.asStr]
    | stroke =>
      simp [htr, AnimationProperties.target, hprop, readProp, hq, Value.asStr]

/-- Applying a track that targets a different field leaves a field's
reading unchanged. -/
theorem readProp_applyAnimation_other (s : ObjectState) (tr : AnimationTrack)
    (t : ℚ) (prop : PropertyTarget) (h : tr.properties.target ≠ prop) :
    readProp (applyAnimation t s tr) prop = readProp s prop := by
  unfold applyAnimation
  cases he : evaluateAnimation tr t with
  | none => rfl
  | some v =>
    cases htr : tr.properties with
    | move p =>
      rw [htr, AnimationProperties.target] at h
      cases prop <;> simp_all [readProp]
    | rotate p =>
      rw [htr, AnimationProperties.target] at h
      cases prop <;> simp_all [readProp]
    | scale p =>
      rw [htr, AnimationProperties.target] at h
      cases prop <;> simp_all [readProp]
    | fade p =>
      rw [htr, AnimationProperties.target] at h
      cases prop <;> simp_all [readProp]
    | color p =>
      rw [htr, AnimationProperties.target] at h
      cases hprop : p.property with
      | fill =>
        rw [hprop] at h
        cases prop <;> simp_all [readProp, hprop]
      | stroke =>
        rw [hprop] at h
        cases prop <;> simp_all [readProp, hprop]

/-- Folding tracks that each target another field or have not started
preserves a field's reading. -/
theorem readProp_foldl_preserve (t : ℚ) (prop : PropertyTarget) :
    ∀ (l : List AnimationTrack) (s : ObjectState),
      (∀ tr ∈ l, tr.properties.target ≠ prop ∨ t < tr.startTime) →
      readProp (l.foldl (applyAnimation t) s) prop = readProp s prop
  | [], _, _ => rfl
  | tr :: rest, s, h => by
    rw [List.foldl_cons]
    rw [readProp_foldl_preserve t prop rest _
      (fun a ha => h a (List.mem_cons_of_mem _ ha))]
    rcases h tr (List.mem_cons_self _ _) with hne | hlt
    · exact readProp_applyAnimation_other s tr t prop hne
    · unfold applyAnimation
      rw [evaluateAnimation_of_not_started hlt]


/-- C3: when two tracks target the same property of the same object and
both are applicable at `t` (`startTime ≤ t`), and no later track in the
array touches that property applicably, the evaluated state carries
exactly the value contributed by the track declared later in array
order — a full overwrite, not a blend. -/
theorem claim_C3_last_wins (obj : SceneObject) (t : ℚ)
    (l1 l2 l3 : List AnimationTrack) (tr1 tr2 : AnimationTrack)
    (h1o : tr1.objectId = obj.id) (h2o : tr2.objectId = obj.id)
    (_hsame : tr1.properties.target = tr2.properties.target)
    (_h1a : tr1.startTime ≤ t) (h2a : tr2.startTime ≤ t)
    (hlast : ∀ tr ∈ l3, tr.objectId = obj.id →
      tr.properties.target = tr2.properties.target → t < tr.startTime) :
    readProp (getObjectStateAtTime obj (l1 ++ tr1 :: (l2 ++ tr2 :: l3)) t)
      tr2.properties.target = some (trackValueAt tr2 t) := by
  unfold getObjectStateAtTime
  have hp1 : (tr1.objectId == obj.id) = true := by simp [h1o]
  have hp2 : (tr2.objectId == obj.id) = true := by simp [h2o]
  rw [List.filter_append, List.filter_cons, if_pos hp1, List.filter_append,
    List.filter_cons, if_pos hp2]
  rw [List.foldl_append, List.foldl_cons, List.foldl_append, List.foldl_cons]
  rw [readProp_foldl_preserve t tr2.properties.target _ _ ?side]
  · exact readProp_applyAnimation_target _ tr2 t h2a
  case side =>
    intro tr htr
    have hmem := List.mem_of_mem_filter htr
    have hid : tr.objectId = obj.id := by
      have := List.of_mem_filter htr
      simpa using this
    by_cases htarget : tr.properties.target = tr2.properties.target
    · exact Or.inr (hlast tr hmem hid htarget)
    · exact Or.inl htarget

/-- Witness for C3: two overlapping move tracks on the same object; at
`t = 5` the state's position is the later track's value `(0, 50)`, not a
blend with the earlier track's `(50, 0)`. -/
theorem claim_C3_last_wins_witness :
    readProp (getObjectStateAtTime objC2 [moveTrackA, moveTrackB] 5)
      moveTrackB.properties.target = some (Value.pt ⟨0, 50⟩) := by
  have h := claim_C3_last_wins objC2 5 [] [] [] moveTrackA moveTrackB rfl rfl rfl
    (by norm_num [moveTrackA]) (by norm_num [moveTrackB]) (by simp)
  have hv : trackValueAt moveTrackB 5 = Value.pt ⟨0, 50⟩ := by
    norm_num [trackValueAt, moveTrackB, interpolateAnimation, getEasingFunction,
      linear, lerpPoint, lerp]
  rw [hv] at h
  simpa using h


/-- `validateScene` returns the empty list exactly when every check
passes. -/
theorem validateScene_eq_nil_iff (scene : AnimationScene) :
    validateScene scene = [] ↔
      (0 < scene.duration ∧ scene.objects ≠ [] ∧
        ∀ a ∈ scene.animations,
          a.objectId ∈ scene.objects.map (fun obj => obj.id) ∧
          0 ≤ a.startTime ∧ a.startTime + a.duration ≤ scene.duration) := by
  unfold validateScene
  simp only [List.append_eq_nil, List.flatMap_eq_nil_iff, ite_eq_right_iff,
    ite_eq_left_iff, not_not, List.cons_ne_nil, imp_false, not_lt, not_le,
    List.length_eq_zero, List.elem_iff]
  constructor
  · rintro ⟨⟨h1, h2⟩, h3⟩
    exact ⟨h1, h2, fun a ha => ⟨(h3 a ha).1.1, (h3 a ha).1.2, (h3 a ha).2⟩⟩
  · rintro ⟨h1, h2, h3⟩
    exact ⟨⟨h1, h2⟩, fun a ha => ⟨⟨(h3 a ha).1, (h3 a ha).2.1⟩, (h3 a ha).2.2⟩⟩

/-- A non-positive duration is reported. -/
theorem mem_validateScene_duration (scene : AnimationScene)
    (h : scene.duration ≤ 0) :
    "Scene duration must be positive" ∈ validateScene scene := by
  unfold validateScene
  apply List.mem_append_left
  apply List.mem_append_left
  rw [if_pos h]
  exact List.mem_singleton.mpr rfl

/-- An empty object list is reported. -/
theorem mem_validateScene_noObjects (scene : AnimationScene)
    (h : scene.objects = []) :
    "Scene must contain at least one object" ∈ validateScene scene := by
  unfold validateScene
  apply List.mem_append_left
  apply List.mem_append_right
  rw [if_pos (by simp [h])]
  exact List.mem_singleton.mpr rfl

/-- An animation whose object id resolves to no object is reported, with
the offending id in the message. -/
theorem mem_validateScene_unknown (scene : AnimationScene)
    (a : AnimationTrack) (ha : a ∈ scene.animations)
    (h : a.objectId ∉ scene.objects.map (fun obj => obj.id)) :
    ("Animation references unknown object: " ++ a.objectId)
      ∈ validateScene scene := by
  unfold validateScene
  apply List.mem_append_right
  refine List.mem_flatMap.mpr ⟨a, ha, ?_⟩
  apply List.mem_append_left
  apply List.mem_append_left
  rw [if_neg (by simpa [List.elem_iff] using h)]
  exact List.mem_singleton.mpr rfl

/-- A negative start time is reported. -/
theorem mem_validateScene_negStart (scene : AnimationScene)
    (a : AnimationTrack) (ha : a ∈ scene.animations)
    (h : a.startTime < 0) :
    ("Animation start time cannot be negative: " ++ a.objectId)
      ∈ validateScene scene := by
  unfold validateScene
  apply List.mem_append_right
  refine List.mem_flatMap.mpr ⟨a, ha, ?_⟩
  apply List.mem_append_left
  apply List.mem_append_right
  rw [if_pos h]
  exact List.mem_singleton.mpr rfl

/-- A track extending beyond the scene duration is reported. -/
theorem mem_validateScene_overlong (scene : AnimationScene)
    (a : AnimationTrack) (ha : a ∈ scene.animations)
    (h : scene.duration < a.startTime + a.duration) :
    ("Animation extends beyond scene duration: " ++ a.objectId)
      ∈ validateScene scene := by
  unfold validateScene
  apply List.mem_append_right
  refine List.mem_flatMap.mpr ⟨a, ha, ?_⟩
  apply List.mem_append_right
  rw [if_pos h]
  exact List.mem_singleton.mpr rfl

/-- C7: `validateScene` accumulates every violation (each failed check
contributes its message, none is skipped) and returns the empty list
exactly when all checks pass; an unresolved object reference yields a
message carrying the offending id.  The function is pure: it neither
mutates the scene nor throws. -/
theorem claim_C7_validateScene (scene : AnimationScene) :
    (validateScene scene = [] ↔
      (0 < scene.duration ∧ scene.objects ≠ [] ∧
        ∀ a ∈ scene.animations,
          a.objectId ∈ scene.objects.map (fun obj => obj.id) ∧
          0 ≤ a.startTime ∧ a.startTime + a.duration ≤ scene.duration))
    ∧ (scene.duration ≤ 0 →
        "Scene duration must be positive" ∈ validateScene scene)
    ∧ (scene.objects = [] →
        "Scene must contain at least one object" ∈ validateScene scene)
    ∧ (∀ a ∈ scene.animations,
        a.objectId ∉ scene.objects.map (fun obj => obj.id) →
        ("Animation references unknown object: " ++ a.objectId)
          ∈ validateScene scene)
    ∧ (∀ a ∈ scene.animations, a.startTime < 0 →
        ("Animation start time cannot be negative: " ++ a.objectId)
          ∈ validateScene scene)
    ∧ (∀ a ∈ scene.animations, scene.duration < a.startTime + a.duration →
        ("Animation extends beyond scene duration: " ++ a.objectId)
          ∈ validateScene scene) :=
  ⟨validateScene_eq_nil_iff scene,
   mem_validateScene_duration scene,
   mem_validateScene_noObjects scene,
   fun a ha h => mem_validateScene_unknown scene a ha h,
   fun a ha h => mem_validateScene_negStart scene a ha h,
   fun a ha h => mem_validateScene_overlong scene a ha h⟩


/-- Witness for C7: the scene with a dangling reference gets an error
message carrying the offending id. -/
theorem claim_C7_validateScene_witness :
    ("Animation references unknown object: " ++ "ghost")
      ∈ validateScene sceneBadRef := by
  have h := (claim_C7_validateScene sceneBadRef).2.2.2.1 ghostTrack
    (by simp [sceneBadRef])
    (by simp +decide [sceneBadRef, objC2, ghostTrack])
  simpa [ghostTrack] using h

/-- C8 fails as stated: on a scene whose only defect is one track with
`startTime + duration > scene.duration`, `generateSceneAnimation` does
not proceed to render — it throws `Scene validation failed`. -/
theorem claim_C8_counterexample :
    validateScene sceneOverlong
      = ["Animation extends beyond scene duration: obj1"]
    ∧ generateSceneAnimation sceneOverlong ≠ RenderOutcome.rendered := by
  have h1 : validateScene sceneOverlong
      = ["Animation extends beyond scene duration: obj1"] := by
    norm_num [validateScene, sceneOverlong, overlongTrack, objC2]
    decide
  refine ⟨h1, ?_⟩
  unfold generateSceneAnimation
  rw [h1]
  simp

/-- C8 amended: the overlong-track violation is reported in the returned
error list, and `generateSceneAnimation` aborts with a validation error
instead of rendering. -/
theorem claim_C8_overlong_fatal (scene : AnimationScene)
    (a : AnimationTrack) (ha : a ∈ scene.animations)
    (hover : scene.duration < a.startTime + a.duration) :
    ("Animation extends beyond scene duration: " ++ a.objectId)
      ∈ validateScene scene
    ∧ ∃ msg, generateSceneAnimation scene = .validationError msg := by
  have hm := mem_validateScene_overlong scene a ha hover
  refine ⟨hm,
    "Scene validation failed: " ++ String.intercalate ", " (validateScene scene),
    ?_⟩
  unfold generateSceneAnimation
  rw [if_pos (List.length_pos.mpr (List.ne_nil_of_mem hm))]

/-- Witness for C8 (amended) on the concrete overlong scene. -/
theorem claim_C8_overlong_fatal_witness :
    ("Animation extends beyond scene duration: " ++ "obj1")
      ∈ validateScene sceneOverlong
    ∧ ∃ msg, generateSceneAnimation sceneOverlong = .validationError msg := by
  have h := claim_C8_overlong_fatal sceneOverlong overlongTrack
    (by simp [sceneOverlong]) (by norm_num [sceneOverlong, overlongTrack])
  simpa [overlongTrack] using h


/-- C4 fails as stated: with `fps = 1, duration = 1` we get
`totalFrames = 1`, and the single frame's progress is `0 / 0 = NaN`, not
the claimed guarded `0` — the loop has no `totalFrames = 1` guard. -/
theorem claim_C4_counterexample :
    generateFrames frameCfgOne EasingName.linear =
      [{ progress := JsVal.nan, easedProgress := JsVal.nan, frameNumber := 0,
         time := JsVal.nan }]
    ∧ JsVal.nan ≠ JsVal.num 0 := by
  constructor
  · norm_num [generateFrames, numFrames, totalFrames, frameCfgOne, frameAt,
      jsDiv, jsMul, easeJsVal, List.range_succ]
  · simp

/-- C4 amended: frame `i` (for `i < fps·duration`) carries
`progress = i / (totalFrames - 1)` under JavaScript division (so `NaN`
when `totalFrames = 1`, with no guard), `easedProgress` = the configured
easing applied to `progress`, and `time = progress · duration` computed
from the raw (pre-easing) progress. -/
theorem claim_C4_frame_record (config : FrameConfig) (easing : EasingName)
    (i : ℕ) (hi : (i : ℚ) < totalFrames config) :
    (generateFrames config easing)[i]? =
      some { progress := jsDiv (i : ℚ) (totalFrames config - 1)
             easedProgress := easeJsVal easing (jsDiv (i : ℚ) (totalFrames config - 1))
             frameNumber := i
             time := jsMul (jsDiv (i : ℚ) (totalFrames config - 1)) config.duration } := by
  have h1 : (i : ℤ) < ⌈totalFrames config⌉ := Int.lt_ceil.mpr (by exact_mod_cast hi)
  have hi2 : i < numFrames config := by
    rw [numFrames]
    exact Int.lt_toNat.mpr h1
  simp [generateFrames, List.getElem?_map, List.getElem?_range, hi2, frameAt]

/-- Witness for C4 (amended): the second of two frames. -/
theorem claim_C4_frame_record_witness :
    (generateFrames frameCfgTwo EasingName.linear)[1]? =
      some { progress := JsVal.num 1, easedProgress := JsVal.num 1,
             frameNumber := 1, time := JsVal.num 1 } := by
  have h := claim_C4_frame_record frameCfgTwo EasingName.linear 1
    (by norm_num [totalFrames, frameCfgTwo])
  rw [h]
  norm_num [frameCfgTwo, totalFrames, jsDiv, jsMul, easeJsVal,
    getEasingFunction, linear]


set_option maxHeartbeats 1600000 in
/-- C5 fails as stated: in `M5 5 S1 1 2 2` the command before `S` is a
`moveTo`, not a curve, so per the claim the first control point should
equal the cursor `(5, 5)`; the interpreter instead reflects the stale
initial `lastControl = (0, 0)` and emits `(10, 10)`. -/
theorem claim_C5_counterexample :
    renderSVGPath "M5 5 S1 1 2 2" =
      [.beginPath, .moveTo 5 5, .bezierCurveTo 10 10 1 1 2 2]
    ∧ renderSVGPath "M5 5 S1 1 2 2" ≠
      [.beginPath, .moveTo 5 5, .bezierCurveTo 5 5 1 1 2 2] := by
  have h : renderSVGPath "M5 5 S1 1 2 2" =
      [.beginPath, .moveTo 5 5, .bezierCurveTo 10 10 1 1 2 2] := by
    simp +decide [renderSVGPath, tokenizePath, splitCommands, splitCommandsAux,
      isCommandLetter, spanNonCommand, getCoords, extractNumsAux, parseNumAt,
      spanDigits, digitsToNat, runCommands, processCommand, initialPathState]
    norm_num
  refine ⟨h, ?_⟩
  rw [h]
  simp


/-- C5 amended: `S`/`T` always use the reflection
`2·cursor − lastControl`, where `lastControl` is whatever control point
the most recent `C`/`S`/`Q`/`T` stored (initially the origin); it is not
gated on the preceding command being a compatible curve, and non-curve
commands (`M`/`L`/`H`/`V`/`Z`, and the unhandled `A`) leave
`lastControl` unchanged rather than resetting it to the cursor. -/
theorem claim_C5_reflection :
    (∀ (state : PathState) (letter : Char) (c0 c1 c2 c3 : ℚ) (rest : List ℚ),
      letter.toUpper = 'S' →
      processCommand state letter (c0 :: c1 :: c2 :: c3 :: rest) =
        ({ state with
            currentX := if letter.isLower then state.currentX + c2 else c2
            currentY := if letter.isLower then state.currentY + c3 else c3
            lastControlX := if letter.isLower then state.currentX + c0 else c0
            lastControlY := if letter.isLower then state.currentY + c1 else c1 },
         [.bezierCurveTo (2 * state.currentX - state.lastControlX)
            (2 * state.currentY - state.lastControlY)
            (if letter.isLower then state.currentX + c0 else c0)
            (if letter.isLower then state.currentY + c1 else c1)
            (if letter.isLower then state.currentX + c2 else c2)
            (if letter.isLower then state.currentY + c3 else c3)]))
    ∧ (∀ (state : PathState) (letter : Char) (c0 c1 : ℚ) (rest : List ℚ),
      letter.toUpper = 'T' →
      processCommand state letter (c0 :: c1 :: rest) =
        ({ state with
            currentX := if letter.isLower then state.currentX + c0 else c0
            currentY := if letter.isLower then state.currentY + c1 else c1
            lastControlX := 2 * state.currentX - state.lastControlX
            lastControlY := 2 * state.currentY - state.lastControlY },
         [.quadraticCurveTo (2 * state.currentX - state.lastControlX)
            (2 * state.currentY - state.lastControlY)
            (if letter.isLower then state.currentX + c0 else c0)
            (if letter.isLower then state.currentY + c1 else c1)]))
    ∧ (∀ (state : PathState) (letter : Char) (coords : List ℚ),
      (letter.toUpper = 'M' ∨ letter.toUpper = 'L' ∨ letter.toUpper = 'H' ∨
       letter.toUpper = 'V' ∨ letter.toUpper = 'Z' ∨ letter.toUpper = 'A') →
      (processCommand state letter coords).1.lastControlX = state.lastControlX ∧
      (processCommand state letter coords).1.lastControlY = state.lastControlY) := by
  refine ⟨?_, ?_, ?_⟩
  · intro state letter c0 c1 c2 c3 rest h
    simp [processCommand, h]
  · intro state letter c0 c1 rest h
    simp [processCommand, h]
  · intro state letter coords h
    rcases h with h | h | h | h | h | h <;>
      rcases coords with _ | ⟨a, _ | ⟨b, r⟩⟩ <;>
      simp [processCommand, h]

/-- Witness for C5 (amended): an absolute `S` after a non-curve command,
with cursor `(5, 5)` and stale `lastControl = (0, 0)`. -/
theorem claim_C5_reflection_witness :
    processCommand ⟨5, 5, 5, 5, 0, 0⟩ 'S' [1, 1, 2, 2] =
      (⟨2, 2, 5, 5, 1, 1⟩, [.bezierCurveTo 10 10 1 1 2 2]) := by
  have h := claim_C5_reflection.1 ⟨5, 5, 5, 5, 0, 0⟩ 'S' 1 1 2 2 [] (by decide)
  rw [h]
  norm_num
  decide


/-- C6: a command occurrence (in any tokenized path string) whose
extracted numeric argument list is shorter than its required arity emits
no drawing operation and leaves the cursor, subpath start, and last
control point unchanged; interpretation is total, so nothing is thrown. -/
theorem claim_C6_insufficient_args (pathData : String) (letter : Char)
    (coords : List ℚ)
    (_hocc : (letter, coords) ∈ tokenizePath pathData)
    (hcmd : letter.toUpper = 'M' ∨ letter.toUpper = 'L' ∨ letter.toUpper = 'T' ∨
            letter.toUpper = 'H' ∨ letter.toUpper = 'V' ∨ letter.toUpper = 'C' ∨
            letter.toUpper = 'S' ∨ letter.toUpper = 'Q')
    (harity : coords.length < requiredArity letter.toUpper)
    (state : PathState) :
    processCommand state letter coords = (state, []) := by
  rcases hcmd with h | h | h | h | h | h | h | h <;>
    rw [h] at harity <;>
    simp +decide [requiredArity] at harity <;>
    rcases coords with _ | ⟨c0, _ | ⟨c1, _ | ⟨c2, _ | ⟨c3, _ | ⟨c4, _ | ⟨c5, r⟩⟩⟩⟩⟩⟩ <;>
    simp at harity <;>
    simp +decide [processCommand, h] <;>
    omega


/-- Witness for C6: an `M` occurrence with a single extracted argument
(from the path string `M7`) is a no-op on an arbitrary concrete state. -/
theorem claim_C6_insufficient_args_witness :
    processCommand ⟨1, 2, 3, 4, 5, 6⟩ 'M' [7] = (⟨1, 2, 3, 4, 5, 6⟩, []) :=
  claim_C6_insufficient_args "M7" 'M' [7]
    (by simp +decide [tokenizePath, splitCommands, splitCommandsAux, isCommandLetter,
      spanNonCommand, getCoords, extractNumsAux, parseNumAt, spanDigits,
      digitsToNat])
    (Or.inl (by decide)) (by decide) ⟨1, 2, 3, 4, 5, 6⟩

end Motion
